import Mathlib

/-!
Verification development for the duckdb hedged-request filesystem extension.

The definitions below are a shallow embedding of the repository's core:

* `future_utils.hpp` — `Token` / `FutureWrapper<T>` / `CreateFuture` / `WaitForAny`.
  A future is modelled by the tick at which its worker finishes (`finish`),
  the stored result-or-exception (`outcome`), and whether the worker thread is
  still owned and joinable (`joinable`).  Blocking waits are modelled as
  functions of the current tick: joining a worker returns at
  `max now finish`.  The condition-variable wait on the shared `Token` is
  modelled by evaluating readiness at an observation tick; the wake-up tick of
  a race is the earliest completion among the issued attempts (`wakeTime`).
* `HedgedRequest` (the race algorithm) and `HedgedFileSystem::ListFiles`.
* `HedgedRequestFsEntry` (the pending registry with its configuration) and
  the settings layer (`UpdateConfigDelay`).
* `HedgedFileHandle::HedgedRead` (the hedged-read variant), modelled by the
  set of writers into the caller-supplied buffer.
-/

namespace HedgedFS

/-- Result of a unit of work: a stored value, or a stored exception message
(`state->exception` in `FutureWrapper::State`). -/
inductive Outcome (T : Type) where
  | ok : T → Outcome T
  | err : String → Outcome T
deriving DecidableEq, Repr

/-- Shallow embedding of `FutureWrapper<T>`: the worker finishes at tick
`finish`, storing `outcome`; `joinable` is `worker.joinable()`. -/
structure FutureWrapper (T : Type) where
  finish : Nat
  outcome : Outcome T
  joinable : Bool
deriving DecidableEq, Repr

/-- `FutureWrapper::IsReady` observed at tick `obs`: `state->ready` is set
exactly when the worker body has completed. -/
def FutureWrapper.IsReady {T : Type} (obs : Nat) (f : FutureWrapper T) : Bool :=
  decide (f.finish ≤ obs)

/-- `FutureWrapper::Get`: joins, then returns the stored result or rethrows the
stored exception — in either case, exactly the stored `outcome`. -/
def FutureWrapper.Get {T : Type} (f : FutureWrapper T) : Outcome T :=
  f.outcome

/-- `FutureWrapper::Wait` / the join inside `Get`, as a function of time:
`if (worker.joinable()) worker.join();` returns once the worker has finished,
i.e. at tick `max now finish`; a non-joinable wrapper returns immediately.
`Wait` never reads `state->exception`. -/
def FutureWrapper.WaitRun {T : Type} (f : FutureWrapper T) (now : Nat) : Nat :=
  if f.joinable then max now f.finish else now

/-- `~FutureWrapper` (both the generic and the `void` specialisation):
`if (worker.joinable()) { worker.join(); }` — the same blocking join as
`Wait`, and never a detach. Returns the tick at which destruction
completes. -/
def FutureWrapper.destructRun {T : Type} (f : FutureWrapper T) (now : Nat) : Nat :=
  if f.joinable then max now f.finish else now

/-- The type-erased pending task handed to the registry:
`AddPendingRequest([pending_fut]() { pending_fut->Wait(); })`.  The stored
`void` task only joins the loser and never rethrows, so its own stored
outcome is `ok ()` whatever the loser's outcome was. -/
def FutureWrapper.eraseToPending {T : Type} (f : FutureWrapper T) : FutureWrapper Unit :=
  { finish := f.finish, outcome := Outcome.ok (), joinable := true }

/-- What `WaitForAny` leaves behind: the futures still in `futs` (the ready
ones) and the returned unready ones. -/
structure WaitForAnyOutcome (T : Type) where
  readyFuts : List (FutureWrapper T)
  unready : List (FutureWrapper T)
deriving DecidableEq, Repr

/-- `WaitForAny` (future_utils.hpp): after the cv-wait on the token returns at
observation tick `obs`, partition `futs` in order into ready and unready;
the ready ones are put back into `futs`, the unready ones are returned. -/
def WaitForAny {T : Type} (futs : List (FutureWrapper T)) (obs : Nat) : WaitForAnyOutcome T :=
  { readyFuts := futs.filter (fun f => f.IsReady obs)
    unready := futs.filter (fun f => ! f.IsReady obs) }

/-- The wake-up tick of a race: the cv on the shared token is signalled by the
first attempt to complete, so the wait returns at the earliest finish among
the issued attempts. -/
def wakeTime {T : Type} : List (FutureWrapper T) → Nat
  | [] => 0
  | [f] => f.finish
  | f :: g :: fs => min f.finish (wakeTime (g :: fs))

/-- The decision step of the race (`HedgedFileSystem::OpenFile` lines 52-60 /
`HedgedRequest`): run `WaitForAny`, return `futs[0].Get()` — the outcome of the
first ready future in issuance order — together with the unready losers. -/
def raceDecide {T : Type} (futs : List (FutureWrapper T)) (obs : Nat) :
    Option (Outcome T) × List (FutureWrapper T) :=
  let w := WaitForAny futs obs
  ((w.readyFuts.head?).map FutureWrapper.Get, w.unready)

/-- Result of one `HedgedRequest` call: the returned outcome, how many attempts
were issued, and the loser futures handed to the registry. -/
structure HedgedRunOutcome (T : Type) where
  result : Option (Outcome T)
  attemptsIssued : Nat
  losers : List (FutureWrapper T)
deriving DecidableEq, Repr

/-- `HedgedRequest<T>` (the race algorithm): issue the primary (finishing at
tick `lat1`); `cv.wait_for(lock, timeout, ...)` returns at the primary's
completion or at the deadline `delta`, whichever comes first; if the primary is
ready, return its result with no hedge issued.  Otherwise issue one hedge at
tick `delta` (finishing at `delta + lat2`), wait for any of the two, return the
first ready attempt's outcome and hand the unready ones to the registry. -/
def HedgedRequest {T : Type} (delta lat1 lat2 : Nat) (out1 out2 : Outcome T) :
    HedgedRunOutcome T :=
  let primary : FutureWrapper T := { finish := lat1, outcome := out1, joinable := true }
  let waitEnd := min lat1 delta
  if primary.IsReady waitEnd then
    { result := some primary.Get, attemptsIssued := 1, losers := [] }
  else
    let hedged : FutureWrapper T := { finish := delta + lat2, outcome := out2, joinable := true }
    let futs := [primary, hedged]
    let d := raceDecide futs (wakeTime futs)
    { result := d.1, attemptsIssued := 2, losers := d.2 }

/-- The attempt count the spec asks for — stated from the spec's words, not
from the code: "exactly `ceil(latency/Δ)` attempts are issued, capped at
`N`". -/
def specAttemptCount (latency delta n : Nat) : Nat :=
  min ((latency + delta - 1) / delta) n

/-- `DEFAULT_HEDGING_DELAYS_MS` (hedged_request_fs_entry.hpp), indexed by
`HedgedRequestOperation` (OPEN_FILE, GLOB, FILE_EXISTS, DIRECTORY_EXISTS,
GET_FILE_SIZE, GET_LAST_MODIFIED_TIME, GET_FILE_TYPE, GET_VERSION_TAG,
LIST_FILES). -/
def DEFAULT_HEDGING_DELAYS_MS : List Nat :=
  [3000, 5000, 3000, 3000, 3000, 3000, 3000, 3000, 5000]

/-- `DEFAULT_MAX_HEDGED_REQUEST_COUNT` (hedged_request_fs_entry.hpp). -/
def DEFAULT_MAX_HEDGED_REQUEST_COUNT : Nat := 3

/-- `HedgedRequestConfig` (hedged_request_fs_entry.hpp, array revision): one
delay per operation kind plus the maximum hedged request count. -/
structure HedgedRequestConfig where
  delays : Fin 9 → Nat
  maxHedgedRequestCount : Nat

/-- The default-constructed `HedgedRequestConfig`. -/
def defaultHedgedRequestConfig : HedgedRequestConfig :=
  { delays := fun i => DEFAULT_HEDGING_DELAYS_MS.getD i.val 0
    maxHedgedRequestCount := DEFAULT_MAX_HEDGED_REQUEST_COUNT }

/-- `HedgedRequestFsEntry`: the pending-loser store plus the configuration,
both guarded by `cache_mutex`. -/
structure HedgedRequestFsEntry where
  pending : List (FutureWrapper Unit)
  config : HedgedRequestConfig

/-- `HedgedRequestFsEntry::CleanupCompleted`: erase-remove every queued handle
that is already ready at the current tick. -/
def CleanupCompleted (pending : List (FutureWrapper Unit)) (obs : Nat) :
    List (FutureWrapper Unit) :=
  pending.filter (fun f => ! f.IsReady obs)

/-- `HedgedRequestFsEntry::AddPendingRequest`: enqueue the erased loser under
the lock, then opportunistically prune completed entries. -/
def HedgedRequestFsEntry.AddPendingRequest (e : HedgedRequestFsEntry)
    (f : FutureWrapper Unit) (obs : Nat) : HedgedRequestFsEntry :=
  { e with pending := CleanupCompleted (e.pending ++ [f]) obs }

/-- `HedgedRequestFsEntry::WaitAll`: under the lock, `Wait()` out every queued
handle in order and clear the store.  Returns the tick at which the drain
completes together with the drained registry. -/
def HedgedRequestFsEntry.WaitAllRun (e : HedgedRequestFsEntry) (now : Nat) :
    Nat × HedgedRequestFsEntry :=
  (e.pending.foldl (fun t f => f.WaitRun t) now, { e with pending := [] })

/-- `~HedgedRequestFsEntry() { WaitAll(); }` — destruction performs exactly the
blocking drain. -/
def HedgedRequestFsEntry.destructRun (e : HedgedRequestFsEntry) (now : Nat) :
    Nat × HedgedRequestFsEntry :=
  e.WaitAllRun now

/-- `HedgedRequestFsEntry::GetConfig`: returns a copy of the stored
configuration. -/
def HedgedRequestFsEntry.GetConfig (e : HedgedRequestFsEntry) : HedgedRequestConfig :=
  e.config

/-- `HedgedRequestFsEntry::SetConfig`: replaces the stored configuration; the
pending store is untouched. -/
def HedgedRequestFsEntry.SetConfig (e : HedgedRequestFsEntry)
    (c : HedgedRequestConfig) : HedgedRequestFsEntry :=
  { e with config := c }

/-- One race in flight: `HedgedRequest` receives the timeout by value, so the
race carries the configuration snapshot taken when it started, plus the inputs
of its two possible attempts. -/
structure RaceState where
  snap : HedgedRequestConfig
  op : Fin 9
  lat1 : Nat
  lat2 : Nat
  out1 : Outcome Nat
  out2 : Outcome Nat

/-- Running a race uses only its snapshot: the delay threshold is the
snapshot's delay for the race's operation kind. -/
def RaceState.run (rs : RaceState) : HedgedRunOutcome Nat :=
  HedgedRequest (rs.snap.delays rs.op) rs.lat1 rs.lat2 rs.out1 rs.out2

/-- The registry together with the races currently in flight against it. -/
structure HedgedSystem where
  entry : HedgedRequestFsEntry
  racesInFlight : List RaceState

/-- Starting a race: read the configuration by value (`GetConfig`) and begin
the race with that snapshot. -/
def HedgedSystem.startRace (s : HedgedSystem) (op : Fin 9) (lat1 lat2 : Nat)
    (out1 out2 : Outcome Nat) : HedgedSystem :=
  { s with racesInFlight :=
      { snap := s.entry.GetConfig, op := op, lat1 := lat1, lat2 := lat2,
        out1 := out1, out2 := out2 } :: s.racesInFlight }

/-- A configuration update: `SetConfig` on the registry; in-flight races are
not touched. -/
def HedgedSystem.setConfig (s : HedgedSystem) (c : HedgedRequestConfig) : HedgedSystem :=
  { s with entry := s.entry.SetConfig c }

end HedgedFS

namespace HedgedFS.Legacy

/-- `HedgedRequestConfig` of the named-field revision
(hedged_request_config.hpp), as read and written by the settings layer of
hedged_fs_settings.cpp (part_004). Delays in milliseconds. -/
structure HedgedRequestConfig where
  open_file_hedging_delay_ms : Int
  glob_hedging_delay_ms : Int
  file_exists_hedging_delay_ms : Int
  directory_exists_hedging_delay_ms : Int
  get_file_size_hedging_delay_ms : Int
  get_last_modified_time_hedging_delay_ms : Int
  get_file_type_hedging_delay_ms : Int
  get_version_tag_hedging_delay_ms : Int
  list_files_hedging_delay_ms : Int
deriving DecidableEq, Repr

/-- The default-constructed legacy configuration. -/
def defaultConfig : HedgedRequestConfig :=
  { open_file_hedging_delay_ms := 3000
    glob_hedging_delay_ms := 5000
    file_exists_hedging_delay_ms := 3000
    directory_exists_hedging_delay_ms := 3000
    get_file_size_hedging_delay_ms := 3000
    get_last_modified_time_hedging_delay_ms := 3000
    get_file_type_hedging_delay_ms := 3000
    get_version_tag_hedging_delay_ms := 3000
    list_files_hedging_delay_ms := 5000 }

/-- The legacy `HedgedRequestFsEntry` as seen by the settings layer: the
stored configuration. -/
structure HedgedRequestFsEntry where
  config : HedgedRequestConfig
deriving DecidableEq, Repr

/-- `UpdateConfigDelay` (part_004 lines 13-24): a negative delay throws
`InvalidInputException` before `GetConfig`/`SetConfig` ever run; otherwise the
selected field (the member pointer is modelled by a setter) is written through
a whole-struct swap.  The pair carries the exception-or-unit result together
with the entry as left behind. -/
def UpdateConfigDelay (e : HedgedRequestFsEntry)
    (setField : HedgedRequestConfig → Int → HedgedRequestConfig)
    (value_ms : Int) : Except String Unit × HedgedRequestFsEntry :=
  if value_ms < 0 then
    (Except.error "must be non-negative", e)
  else
    (Except.ok (), { e with config := setField e.config value_ms })

end HedgedFS.Legacy

namespace HedgedFS

/-- Steps of the hedge task body inside `HedgedFileHandle::HedgedRead`
(part_006 lines 53-70): open an independent handle, seek to the captured
offset, read into the freshly allocated scratch buffer, then
`memcpy(buffer, hedged_buffer->data(), bytes)` into the caller's buffer.
The task runs this whole body to completion whenever it runs. -/
inductive HedgeStep where
  | openNewHandle
  | seekToCapturedOffset
  | readIntoScratch
  | memcpyScratchToCallerBuf
deriving DecidableEq, Repr

/-- The hedge task body, in program order. -/
def hedgeTaskSteps : List HedgeStep :=
  [HedgeStep.openNewHandle, HedgeStep.seekToCapturedOffset,
   HedgeStep.readIntoScratch, HedgeStep.memcpyScratchToCallerBuf]

/-- Who performs a write into the caller-supplied buffer. -/
inductive BufWriter where
  | primary
  | hedge
deriving DecidableEq, Repr

/-- One `HedgedRead` call: whether a hedge was issued, which attempt won the
polling race, and the attempts that write into the caller's buffer, in
completion order. -/
structure HedgedReadRun where
  hedgeIssued : Bool
  winner : BufWriter
  callerBufWriters : List BufWriter
deriving DecidableEq, Repr

/-- `HedgedFileHandle::HedgedRead` (part_006 lines 21-113): the primary reads
directly into the caller's buffer, finishing at `latP`.  If it beats the
timeout, no hedge exists.  Otherwise the hedge task starts at tick `delta`,
runs `hedgeTaskSteps` and finishes at `delta + latH`; the polling loop checks
the primary first each round, so the primary wins ties.  The hedge task writes
the caller's buffer exactly when its body contains the final memcpy step — and
the task body runs whenever the task runs, winner or loser. -/
def HedgedRead (delta latP latH : Nat) : HedgedReadRun :=
  if latP ≤ delta then
    { hedgeIssued := false, winner := BufWriter.primary, callerBufWriters := [BufWriter.primary] }
  else
    let hedgeFinish := delta + latH
    let winner := if latP ≤ hedgeFinish then BufWriter.primary else BufWriter.hedge
    let hedgeWrites : List BufWriter :=
      if hedgeTaskSteps.contains HedgeStep.memcpyScratchToCallerBuf then [BufWriter.hedge] else []
    let writers :=
      if latP ≤ hedgeFinish then [BufWriter.primary] ++ hedgeWrites
      else hedgeWrites ++ [BufWriter.primary]
    { hedgeIssued := true, winner := winner, callerBufWriters := writers }

/-- One `HedgedFileSystem::ListFiles` call (part_003 lines 235-259): the
sequence of caller-callback invocations, performed sequentially on the calling
thread after the race returns, and whether a hedge was issued. -/
structure ListFilesRun where
  hedgeIssued : Bool
  callbackCalls : List (String × Bool)
deriving DecidableEq, Repr

/-- `HedgedFileSystem::ListFiles`: both attempts run the same listing and
append every directory entry to the one shared `results` vector under
`results_mutex`; after `HedgedRequest` returns, the caller's callback is
invoked once per collected entry.  At the decision tick
`w = min lat1 (delta + lat2)` the shared vector holds the entries of every
attempt that has completed by then, in completion order (primary first on a
tie). -/
def ListFilesHedged (delta lat1 lat2 : Nat) (entries : List (String × Bool)) :
    ListFilesRun :=
  if lat1 ≤ delta then
    { hedgeIssued := false, callbackCalls := entries }
  else
    let finish2 := delta + lat2
    let w := min lat1 finish2
    let results :=
      (if lat1 ≤ w then entries else []) ++ (if finish2 ≤ w then entries else [])
    { hedgeIssued := true, callbackCalls := results }

/-- Concrete two-attempt race used by the witnesses: the hedge (issued second)
finishes first. -/
def exampleFuts : List (FutureWrapper Nat) :=
  [{ finish := 9, outcome := Outcome.err "primary failed", joinable := true },
   { finish := 4, outcome := Outcome.ok 7, joinable := true }]

/-- Concrete registry used by the witnesses: one queued loser, default
configuration. -/
def exampleEntry : HedgedRequestFsEntry :=
  { pending := [{ finish := 11, outcome := Outcome.ok (), joinable := true }]
    config := defaultHedgedRequestConfig }

/-- Concrete two-attempt race whose earliest finisher failed, used by the
error-propagation witness. -/
def exampleFutsErr : List (FutureWrapper Nat) :=
  [{ finish := 6, outcome := Outcome.err "boom", joinable := true },
   { finish := 9, outcome := Outcome.ok 1, joinable := true }]

theorem wakeTime_cons_cons {T : Type} (f g : FutureWrapper T) (fs : List (FutureWrapper T)) :
    wakeTime (f :: g :: fs) = min f.finish (wakeTime (g :: fs)) := rfl

theorem raceDecide_cons_ready {T : Type} (f : FutureWrapper T) (l : List (FutureWrapper T))
    (obs : Nat) (h : f.IsReady obs = true) :
    (raceDecide (f :: l) obs).1 = some f.Get := by
  simp [raceDecide, WaitForAny, List.filter_cons, h]

theorem raceDecide_cons_notReady {T : Type} (f : FutureWrapper T) (l : List (FutureWrapper T))
    (obs : Nat) (h : f.IsReady obs = false) :
    (raceDecide (f :: l) obs).1 = (raceDecide l obs).1 := by
  simp [raceDecide, WaitForAny, List.filter_cons, h]

/-- The race decision at the wake-up tick returns the outcome of the
earliest-finishing attempt, with issuance order breaking ties: the returned
future `wf` finishes exactly at the wake-up tick and every attempt issued
before it finished strictly later. -/
theorem raceDecide_earliest {T : Type} :
    ∀ futs : List (FutureWrapper T), futs ≠ [] →
    ∃ pre wf post,
      futs = pre ++ wf :: post ∧
      (raceDecide futs (wakeTime futs)).1 = some wf.Get ∧
      wf.finish = wakeTime futs ∧
      ∀ p ∈ pre, wakeTime futs < p.finish
  | [], hne => absurd rfl hne
  | [f], _ => by
    refine ⟨[], f, [], rfl, ?_, rfl, by simp⟩
    exact raceDecide_cons_ready f [] f.finish (by simp [FutureWrapper.IsReady, wakeTime])
  | f :: g :: gs, _ => by
    by_cases hf : f.finish ≤ wakeTime (f :: g :: gs)
    · refine ⟨[], f, g :: gs, rfl, ?_, ?_, by simp⟩
      · exact raceDecide_cons_ready f (g :: gs) _ (by simpa [FutureWrapper.IsReady] using hf)
      · rw [wakeTime_cons_cons] at hf ⊢
        omega
    · have hw : wakeTime (f :: g :: gs) = wakeTime (g :: gs) := by
        rw [wakeTime_cons_cons] at hf ⊢
        omega
      obtain ⟨pre, wf, post, heq, hres, hfin, hpre⟩ := raceDecide_earliest (g :: gs) (by simp)
      refine ⟨f :: pre, wf, post, by rw [heq]; rfl, ?_, by rw [hw]; exact hfin, ?_⟩
      · rw [raceDecide_cons_notReady f (g :: gs) _ (by simpa [FutureWrapper.IsReady] using hf),
          hw]
        exact hres
      · intro p hp
        rcases List.mem_cons.mp hp with h | h
        · subst h
          omega
        · rw [hw]
          exact hpre p h

theorem waitRun_foldl_le (l : List (FutureWrapper Unit)) (a : Nat) :
    a ≤ l.foldl (fun t f => f.WaitRun t) a := by
  induction l generalizing a with
  | nil => exact le_refl a
  | cons g l ih =>
    have hg : a ≤ g.WaitRun a := by
      unfold FutureWrapper.WaitRun
      split <;> omega
    exact le_trans hg (ih (g.WaitRun a))

theorem waitRun_foldl_mem (l : List (FutureWrapper Unit)) (f : FutureWrapper Unit)
    (hf : f ∈ l) (hj : f.joinable = true) (a : Nat) :
    f.finish ≤ l.foldl (fun t g => g.WaitRun t) a := by
  induction hf generalizing a with
  | head as =>
    have h1 : f.finish ≤ f.WaitRun a := by
      have h2 : f.WaitRun a = max a f.finish := by
        simp [FutureWrapper.WaitRun, hj]
      omega
    exact le_trans h1 (waitRun_foldl_le as (f.WaitRun a))
  | tail b hmem ih => exact ih (b.WaitRun a)

/-- Claim C1: for every race with more than one issued attempt, the value
returned to the caller equals the outcome of the issued attempt that finished
earliest; among attempts ready at the same wake-up, the earlier-issued one
wins (the primary wins ties over later hedges).  The winner `wf` finishes at
the wake-up tick and every earlier-issued attempt (the prefix `pre`) finished
strictly later. -/
theorem C1_race_returns_earliest_attempt {T : Type} (futs : List (FutureWrapper T))
    (h2 : 2 ≤ futs.length) :
    ∃ pre wf post,
      futs = pre ++ wf :: post ∧
      (raceDecide futs (wakeTime futs)).1 = some wf.Get ∧
      wf.finish = wakeTime futs ∧
      ∀ p ∈ pre, wakeTime futs < p.finish := by
  apply raceDecide_earliest
  intro h
  rw [h] at h2
  simp at h2

theorem C1_witness :
    2 ≤ exampleFuts.length ∧
    ∃ pre wf post,
      exampleFuts = pre ++ wf :: post ∧
      (raceDecide exampleFuts (wakeTime exampleFuts)).1 = some wf.Get ∧
      wf.finish = wakeTime exampleFuts ∧
      ∀ p ∈ pre, wakeTime exampleFuts < p.finish :=
  ⟨by decide, C1_race_returns_earliest_attempt exampleFuts (by decide)⟩

/-- Claim C2: whenever the primary attempt becomes ready within the delay
threshold, exactly one attempt is issued: the bounded wait returns, the
primary's result is returned immediately, and no hedge is started. -/
theorem C2_fast_path_single_attempt {T : Type} (delta lat1 lat2 : Nat)
    (out1 out2 : Outcome T) (h : lat1 ≤ delta) :
    HedgedRequest delta lat1 lat2 out1 out2 =
      { result := some out1, attemptsIssued := 1, losers := [] } := by
  have hr : FutureWrapper.IsReady (min lat1 delta)
      ({ finish := lat1, outcome := out1, joinable := true } : FutureWrapper T) = true := by
    simp [FutureWrapper.IsReady]
    omega
  simp [HedgedRequest, hr, FutureWrapper.Get]

theorem C2_witness :
    30 ≤ 100 ∧
    HedgedRequest 100 30 5 (Outcome.ok (1 : Nat)) (Outcome.ok 2) =
      { result := some (Outcome.ok 1), attemptsIssued := 1, losers := [] } :=
  ⟨by decide, C2_fast_path_single_attempt 100 30 5 _ _ (by decide)⟩

/-- Claim C3 (code evaluation): with threshold 50 and an operation latency of
120 for every attempt, the shipped `HedgedRequest` issues only 2 attempts,
while the spec's count `ceil(120/50)` capped at the default maximum 3 is 3 —
the scheduler never escalates beyond a single hedge and never reads
`max_hedged_request_count`. -/
theorem C3_code_issues_at_most_two_attempts :
    (HedgedRequest 50 120 120 (Outcome.ok (0 : Nat)) (Outcome.ok 0)).attemptsIssued = 2 ∧
    specAttemptCount 120 50 DEFAULT_MAX_HEDGED_REQUEST_COUNT = 3 := by
  decide

/-- Claim C4: the winner's stored outcome — an error included — is returned to
the caller unchanged, and every loser handed to the registry is stored behind
a `Wait`-only task whose own outcome is `ok ()`, so a loser's error is
discarded and never reaches any caller. -/
theorem C4_winner_error_propagated_losers_discarded {T : Type}
    (futs : List (FutureWrapper T)) (hne : futs ≠ []) :
    (∃ wf, wf ∈ futs ∧
        (raceDecide futs (wakeTime futs)).1 = some wf.outcome ∧
        ∀ msg, wf.outcome = Outcome.err msg →
          (raceDecide futs (wakeTime futs)).1 = some (Outcome.err msg)) ∧
    ∀ f ∈ (raceDecide futs (wakeTime futs)).2,
      (FutureWrapper.eraseToPending f).outcome = Outcome.ok () := by
  obtain ⟨pre, wf, post, heq, hres, hfin, hpre⟩ := raceDecide_earliest futs hne
  refine ⟨⟨wf, ?_, hres, ?_⟩, ?_⟩
  · rw [heq]
    exact List.mem_append_right _ (List.mem_cons_self _ _)
  · intro msg hmsg
    simpa [FutureWrapper.Get, hmsg] using hres
  · intro f _
    rfl

theorem C4_witness :
    exampleFutsErr ≠ [] ∧
    ((∃ wf, wf ∈ exampleFutsErr ∧
        (raceDecide exampleFutsErr (wakeTime exampleFutsErr)).1 = some wf.outcome ∧
        ∀ msg, wf.outcome = Outcome.err msg →
          (raceDecide exampleFutsErr (wakeTime exampleFutsErr)).1 = some (Outcome.err msg)) ∧
      ∀ f ∈ (raceDecide exampleFutsErr (wakeTime exampleFutsErr)).2,
        (FutureWrapper.eraseToPending f).outcome = Outcome.ok ()) :=
  ⟨by decide, C4_winner_error_propagated_losers_discarded exampleFutsErr (by decide)⟩

/-- Claim C5: destroying a `FutureWrapper` whose worker is still running
blocks until the worker has finished: the destructor returns no earlier than
the worker's finish tick (exactly at it when the worker is still running), and
it takes the same blocking-join path as `Wait` — no destructor path detaches
or abandons a running worker. -/
theorem C5_destructor_joins_running_worker {T : Type} (f : FutureWrapper T) (now : Nat)
    (hj : f.joinable = true) :
    f.finish ≤ f.destructRun now ∧
    (now < f.finish → f.destructRun now = f.finish) ∧
    f.destructRun now = f.WaitRun now := by
  have h2 : f.destructRun now = max now f.finish := by
    simp [FutureWrapper.destructRun, hj]
  refine ⟨?_, ?_, rfl⟩
  · omega
  · intro h
    omega

theorem C5_witness :
    ({ finish := 10, outcome := Outcome.ok (0 : Nat), joinable := true } :
        FutureWrapper Nat).joinable = true ∧
    (10 ≤ FutureWrapper.destructRun
        { finish := 10, outcome := Outcome.ok (0 : Nat), joinable := true } 3 ∧
      (3 < 10 → FutureWrapper.destructRun
          { finish := 10, outcome := Outcome.ok (0 : Nat), joinable := true } 3 = 10) ∧
      FutureWrapper.destructRun
          { finish := 10, outcome := Outcome.ok (0 : Nat), joinable := true } 3 =
        FutureWrapper.WaitRun
          { finish := 10, outcome := Outcome.ok (0 : Nat), joinable := true } 3) :=
  ⟨rfl,
    C5_destructor_joins_running_worker
      ({ finish := 10, outcome := Outcome.ok (0 : Nat), joinable := true } : FutureWrapper Nat)
      3 rfl⟩

/-- Claim C6: after the registry's blocking drain returns, the pending store
is empty and every previously queued joinable attempt has finished no later
than the tick at which the drain returns; destroying the registry performs
exactly the same drain. -/
theorem C6_waitall_drains_and_destructor_drains (e : HedgedRequestFsEntry) (now : Nat) :
    ((e.WaitAllRun now).2).pending = [] ∧
    (∀ f ∈ e.pending, f.joinable = true → f.finish ≤ (e.WaitAllRun now).1) ∧
    e.destructRun now = e.WaitAllRun now := by
  refine ⟨rfl, ?_, rfl⟩
  intro f hf hj
  exact waitRun_foldl_mem e.pending f hf hj now

theorem C6_witness :
    ({ finish := 11, outcome := Outcome.ok (), joinable := true } :
        FutureWrapper Unit) ∈ exampleEntry.pending ∧
    ({ finish := 11, outcome := Outcome.ok (), joinable := true } :
        FutureWrapper Unit).joinable = true ∧
    ({ finish := 11, outcome := Outcome.ok (), joinable := true } :
        FutureWrapper Unit).finish ≤ (exampleEntry.WaitAllRun 0).1 :=
  ⟨by decide, rfl,
    (C6_waitall_drains_and_destructor_drains exampleEntry 0).2.1 _ (by decide) rfl⟩

/-- Claim C7 (code evaluation): with threshold 50, primary read latency 200
and hedge read latency 300 the primary wins the race and the hedge loses, yet
the hedge — whose task body ends with `memcpy` into the caller's buffer and
runs to completion whenever the task runs — still appears among the writers
into the caller's buffer: a losing hedge attempt does write into the caller's
buffer. -/
theorem C7_losing_hedge_writes_caller_buffer :
    (HedgedRead 50 200 300).winner = BufWriter.primary ∧
    (HedgedRead 50 200 300).hedgeIssued = true ∧
    BufWriter.hedge ∈ (HedgedRead 50 200 300).callerBufWriters := by
  decide

/-- Claim C8: updating the configuration never changes a race already in
progress — the race keeps the configuration snapshot (delays and attempt cap)
it copied from `GetConfig` when it started, and runs with that snapshot's
delay; only `GetConfig` calls made afterwards, and hence races started
afterwards, observe the update. -/
theorem C8_config_update_not_retroactive (s : HedgedSystem) (c : HedgedRequestConfig)
    (op : Fin 9) (lat1 lat2 : Nat) (out1 out2 : Outcome Nat) :
    ((s.startRace op lat1 lat2 out1 out2).setConfig c).racesInFlight =
        (s.startRace op lat1 lat2 out1 out2).racesInFlight ∧
    ((s.startRace op lat1 lat2 out1 out2).racesInFlight.head?).map RaceState.snap =
        some s.entry.config ∧
    (((s.startRace op lat1 lat2 out1 out2).setConfig c).racesInFlight.head?).map
        RaceState.run =
      some (HedgedRequest (s.entry.config.delays op) lat1 lat2 out1 out2) ∧
    ((((s.startRace op lat1 lat2 out1 out2).setConfig c).startRace op lat1 lat2 out1
          out2).racesInFlight.head?).map RaceState.snap = some c ∧
    (((s.startRace op lat1 lat2 out1 out2).setConfig c).entry).GetConfig = c :=
  ⟨rfl, rfl, rfl, rfl, rfl⟩

/-- Claim C9: a configuration update with a negative delay is rejected with an
error before the stored configuration is read or modified, so the entry is
left exactly as it was. -/
theorem C9_negative_delay_rejected (e : Legacy.HedgedRequestFsEntry)
    (setField : Legacy.HedgedRequestConfig → Int → Legacy.HedgedRequestConfig)
    (value_ms : Int) (hneg : value_ms < 0) :
    (Legacy.UpdateConfigDelay e setField value_ms).1 =
        Except.error "must be non-negative" ∧
    (Legacy.UpdateConfigDelay e setField value_ms).2 = e := by
  simp [Legacy.UpdateConfigDelay, hneg]

theorem C9_witness :
    ((-1 : Int) < 0) ∧
    ((Legacy.UpdateConfigDelay { config := Legacy.defaultConfig }
          (fun c v => { c with open_file_hedging_delay_ms := v }) (-1)).1 =
        Except.error "must be non-negative" ∧
      (Legacy.UpdateConfigDelay { config := Legacy.defaultConfig }
          (fun c v => { c with open_file_hedging_delay_ms := v }) (-1)).2 =
        { config := Legacy.defaultConfig }) :=
  ⟨by decide,
    C9_negative_delay_rejected { config := Legacy.defaultConfig }
      (fun c v => { c with open_file_hedging_delay_ms := v }) (-1) (by decide)⟩

/-- Claim C10 (counterexample): with threshold 50, primary latency 100 and
hedge latency 50 both attempts complete at the decision tick, both have
appended the single directory entry to the shared results vector, and the
caller's callback receives that entry twice — not exactly once. -/
theorem C10_counterexample_duplicate_entries :
    ((ListFilesHedged 50 100 50 [("a", false)]).callbackCalls).count ("a", false) = 2 := by
  decide

/-- Claim C10 (amended): the caller's callback runs only after the race is
decided, sequentially, once per entry for each attempt that had completed by
the decision tick: exactly once per entry when only one attempt had completed
(the fast path, a primary win, or a hedge win), and twice per entry when the
primary and the hedge completed at the same decision tick. -/
theorem C10_amended_callback_after_decision (delta lat1 lat2 : Nat)
    (entries : List (String × Bool)) :
    (lat1 ≤ delta → (ListFilesHedged delta lat1 lat2 entries).callbackCalls = entries) ∧
    (delta < lat1 → lat1 < delta + lat2 →
      (ListFilesHedged delta lat1 lat2 entries).callbackCalls = entries) ∧
    (delta < lat1 → delta + lat2 < lat1 →
      (ListFilesHedged delta lat1 lat2 entries).callbackCalls = entries) ∧
    (delta < lat1 → lat1 = delta + lat2 →
      (ListFilesHedged delta lat1 lat2 entries).callbackCalls = entries ++ entries) := by
  refine ⟨?_, ?_, ?_, ?_⟩
  · intro h
    simp [ListFilesHedged, h]
  · intro h1 h2
    have hnle : ¬ lat1 ≤ delta := by omega
    have ha : lat1 ≤ min lat1 (delta + lat2) := by omega
    have hb : ¬ delta + lat2 ≤ min lat1 (delta + lat2) := by omega
    simp [ListFilesHedged, hnle, ha, hb]
  · intro h1 h2
    have hnle : ¬ lat1 ≤ delta := by omega
    have ha : ¬ lat1 ≤ min lat1 (delta + lat2) := by omega
    have hb : delta + lat2 ≤ min lat1 (delta + lat2) := by omega
    simp [ListFilesHedged, hnle, ha, hb]
  · intro h1 h2
    have hnle : ¬ lat1 ≤ delta := by omega
    have ha : lat1 ≤ min lat1 (delta + lat2) := by omega
    have hb : delta + lat2 ≤ min lat1 (delta + lat2) := by omega
    simp [ListFilesHedged, hnle, ha, hb]

theorem C10_amended_witness :
    (50 < 100 ∧ 100 = 50 + 50) ∧
    (ListFilesHedged 50 100 50 [("a", false)]).callbackCalls =
      [("a", false)] ++ [("a", false)] :=
  ⟨⟨by decide, by decide⟩,
    (C10_amended_callback_after_decision 50 100 50 [("a", false)]).2.2.2
      (by decide) (by decide)⟩

end HedgedFS
